import Mathlib

/-!
Verification of the alpenhorn client persistence layer and the PKG
error-code stringer against their specification.

The Go source is embedded shallowly:

* machine integers become `Nat` (or `Int` where Go uses a signed type and
  sign matters), bytes become `Fin 256`;
* the file system becomes an explicit association list from paths to file
  contents, with a set of paths on which writes fail (modelling I/O
  errors) and the file mode recorded next to the data;
* Go's `encoding/json` is modelled at the level of a JSON document tree:
  marshalling a struct produces a `Json` value (struct fields in
  declaration order, map keys sorted, `[]byte` base64-encoded, as the Go
  encoder does) and the textual rendering of a document is a separate
  deterministic function reproducing `json.MarshalIndent`'s layout;
* fallible operations return `Option` or `Except`;
* the Go pointer back-reference from a request record to its owning
  client is modelled by the owning client's numeric identity (`ref`).

Types whose Go definitions are outside the covered source (the request
record fields, `SignedConfig`, the keywheel and its binary encoding) are
modelled from the spec; each such definition says so in its doc comment.
-/

namespace Alpenhorn

/-- A byte, as in Go. -/
abbrev Byte := Fin 256

/-- A byte slice, as in Go. -/
abbrev Bytes := List Byte

/-- Truncate a natural number to a byte. -/
def mkByte (n : Nat) : Byte := ⟨n % 256, Nat.mod_lt _ (by decide)⟩

/-! ## The generated stringer for `pkg.ErrorCode`

The repository contains two copies of the generated file
`errorcode_string.go`: the one under `pkg/` and the copy shipped next to
the client persistence source.  Both are embedded; they differ in their
name table, which is the point of claims C4 and C9. -/

/-- `_ErrorCode_name` from `src/pkg/errorcode_string.go` (the copy under
`pkg/`; note it lacks `ErrInvalidLoginKey`). -/
def ErrorCodeNamePkg : String :=
  "ErrBadRequestJSONErrDatabaseErrorErrInvalidUsernameErrNotRegisteredErrNotVerifiedErrAlreadyRegisteredErrRegistrationInProgressErrSendingEmailErrRoundNotFoundErrInvalidUserLongTermKeyErrInvalidSignatureErrInvalidTokenErrExpiredTokenErrUnauthorizedErrBadCommitmentErrUnknown"

/-- `_ErrorCode_index` from `src/pkg/errorcode_string.go`. -/
def ErrorCodeIndexPkg : List Nat :=
  [0, 17, 33, 51, 67, 81, 101, 126, 141, 157, 182, 201, 216, 231, 246, 262, 272]

/-- `_ErrorCode_name` from the copy of `errorcode_string.go` embedded in
`src/unnamed/part_000` (this copy includes `ErrInvalidLoginKey`). -/
def ErrorCodeNameClient : String :=
  "ErrBadRequestJSONErrDatabaseErrorErrInvalidUsernameErrInvalidLoginKeyErrNotRegisteredErrNotVerifiedErrAlreadyRegisteredErrRegistrationInProgressErrSendingEmailErrRoundNotFoundErrInvalidUserLongTermKeyErrInvalidSignatureErrInvalidTokenErrExpiredTokenErrUnauthorizedErrBadCommitmentErrUnknown"

/-- `_ErrorCode_index` from the copy in `src/unnamed/part_000`. -/
def ErrorCodeIndexClient : List Nat :=
  [0, 17, 33, 51, 69, 85, 99, 119, 144, 159, 175, 200, 219, 234, 249, 264, 280, 290]

/-- Go string slicing `s[a:b]`; the name tables are ASCII so characters
coincide with bytes. -/
def strSliceBytes (s : String) (a b : Nat) : String :=
  ⟨(s.data.drop a).take (b - a)⟩

/-- `ErrorCode.String` from `src/pkg/errorcode_string.go`.  `ErrorCode`
is a Go `int`, modelled as `Int`; `i -= 1` and the bounds check follow
the source, and the out-of-range branch prints the original value
(`i+1`) in decimal like `fmt.Sprintf`. -/
def ErrorCodeStringPkg (code : Int) : String :=
  let i : Int := code - 1
  if i < 0 ∨ ((ErrorCodeIndexPkg.length - 1 : Nat) : Int) ≤ i then
    "ErrorCode(" ++ toString (i + 1) ++ ")"
  else
    strSliceBytes ErrorCodeNamePkg (ErrorCodeIndexPkg.getD i.toNat 0)
      (ErrorCodeIndexPkg.getD (i.toNat + 1) 0)

/-- `ErrorCode.String` from the copy of the generated file embedded in
`src/unnamed/part_000`. -/
def ErrorCodeStringClient (code : Int) : String :=
  let i : Int := code - 1
  if i < 0 ∨ ((ErrorCodeIndexClient.length - 1 : Nat) : Int) ≤ i then
    "ErrorCode(" ++ toString (i + 1) ++ ")"
  else
    strSliceBytes ErrorCodeNameClient (ErrorCodeIndexClient.getD i.toNat 0)
      (ErrorCodeIndexClient.getD (i.toNat + 1) 0)

/-- Modelled from the spec: the seventeen error kinds recognized by the
PKG sub-protocol, in declaration order.  The file declaring the
`ErrorCode` constants (`pkg/errors.go`) is not part of the covered
source; per the generated stringer's layout the kind listed at position
`k` has code `k + 1`. -/
def errorKinds : List String :=
  ["BadRequestJSON", "DatabaseError", "InvalidUsername", "InvalidLoginKey",
   "NotRegistered", "NotVerified", "AlreadyRegistered",
   "RegistrationInProgress", "SendingEmail", "RoundNotFound",
   "InvalidUserLongTermKey", "InvalidSignature", "InvalidToken",
   "ExpiredToken", "Unauthorized", "BadCommitment", "Unknown"]


/-- The standard base64 alphabet used by Go's `encoding/base64.StdEncoding`. -/
def b64Alphabet : List Char :=
  "ABCDEFGHIJKLMNOPQRSTUVWXYZabcdefghijklmnopqrstuvwxyz0123456789+/".data

/-- The character of a 6-bit group. -/
def b64Char (n : Nat) : Char := b64Alphabet.getD n '='

/-- Inverse lookup in the base64 alphabet. -/
def b64Index (c : Char) : Option Nat := b64Alphabet.indexOf? c

/-- Standard base64 encoding of a byte slice.  Bit operations are written
with division and remainder: for bytes `a b c` the 24-bit group is
`a*65536 + b*256 + c` and the four output characters are its four 6-bit
digits (each digit is written `_ % 64`; for the leading digit the
remainder is a no-op since the group is below `2^24`).  One or two
trailing bytes are padded with `=` as in Go. -/
def b64EncodeList : Bytes → List Char
  | [] => []
  | [a] =>
    let n := a.val * 16
    [b64Char (n / 64 % 64), b64Char (n % 64), '=', '=']
  | [a, b] =>
    let m := (a.val * 256 + b.val) * 4
    [b64Char (m / 4096 % 64), b64Char (m / 64 % 64), b64Char (m % 64), '=']
  | a :: b :: c :: rest =>
    let n := (a.val * 256 + b.val) * 256 + c.val
    b64Char (n / 262144 % 64) :: b64Char (n / 4096 % 64) :: b64Char (n / 64 % 64) ::
      b64Char (n % 64) :: b64EncodeList rest

/-- Standard base64 decoding, inverse to `b64EncodeList`. -/
def b64DecodeList : List Char → Option Bytes
  | [] => some []
  | c1 :: c2 :: c3 :: c4 :: rest =>
    match b64Index c1 with
    | none => none
    | some k1 =>
      match b64Index c2 with
      | none => none
      | some k2 =>
        if c3 = '=' then
          if c4 = '=' ∧ rest = [] then
            some [mkByte ((k1 * 64 + k2) / 16)]
          else none
        else
          match b64Index c3 with
          | none => none
          | some k3 =>
            if c4 = '=' then
              if rest = [] then
                let m := (k1 * 64 + k2) * 64 + k3
                some [mkByte (m / 1024), mkByte (m / 4)]
              else none
            else
              match b64Index c4 with
              | none => none
              | some k4 =>
                match b64DecodeList rest with
                | none => none
                | some tl =>
                  let n := ((k1 * 64 + k2) * 64 + k3) * 64 + k4
                  mkByte (n / 65536) :: mkByte (n / 256) :: mkByte n :: tl
  | _ => none

/-- Base64 encoding to a `String`, as Go's `base64.StdEncoding.EncodeToString`. -/
def base64Encode (bs : Bytes) : String := ⟨b64EncodeList bs⟩

/-- Base64 decoding from a `String`. -/
def base64Decode (s : String) : Option Bytes := b64DecodeList s.data


/-! ## JSON documents

Go's `encoding/json` is modelled at the level of a document tree: the
values that `json.MarshalIndent` serializes and `json.Unmarshal` parses.
The textual layer (rendering a tree with a given prefix and indent) is
`marshalIndent` below; parsing text back to a tree is the stdlib's job
and is not re-modelled, so a JSON file in the modelled file system holds
its document tree and renders deterministically. -/

/-- A JSON document.  The numbers occurring in the persisted client state
are unsigned integers. -/
inductive Json where
  | null : Json
  | bool (b : Bool) : Json
  | num (n : Nat) : Json
  | str (s : String) : Json
  | arr (elems : List Json) : Json
  | obj (fields : List (String × Json)) : Json

/-- Lower-case hexadecimal digit. -/
def hexDigit (n : Nat) : String :=
  strSliceBytes "0123456789abcdef" (n % 16) (n % 16 + 1)

/-- Escaping of one character inside a JSON string, as Go's encoder does
it (with its default HTML escaping of angle brackets and ampersands). -/
def jsonQuoteChar (c : Char) : String :=
  if c = '"' then "\\\""
  else if c = '\\' then "\\\\"
  else if c = '\n' then "\\n"
  else if c = '\r' then "\\r"
  else if c = '\t' then "\\t"
  else if c = '<' then "\\u003c"
  else if c = '>' then "\\u003e"
  else if c = '&' then "\\u0026"
  else if c.toNat < 32 then "\\u00" ++ hexDigit (c.toNat / 16) ++ hexDigit (c.toNat % 16)
  else String.singleton c

/-- A JSON string literal with Go's escaping. -/
def jsonQuote (s : String) : String :=
  "\"" ++ String.join (s.data.map jsonQuoteChar) ++ "\""

mutual

/-- The text of a JSON document exactly as Go's `json.MarshalIndent`
lays it out: every element of a non-empty array or object starts on a new
line indented one `ind` deeper than the enclosing bracket line `cur`. -/
def renderJson (ind cur : String) : Json → String
  | .null => "null"
  | .bool b => if b then "true" else "false"
  | .num n => toString n
  | .str s => jsonQuote s
  | .arr [] => "[]"
  | .arr (x :: xs) =>
    "[\n" ++ renderElems ind (cur ++ ind) x xs ++ "\n" ++ cur ++ "]"
  | .obj [] => "\x7b\x7d"
  | .obj ((k, v) :: fs) =>
    "\x7b\n" ++ renderFields ind (cur ++ ind) k v fs ++ "\n" ++ cur ++ "\x7d"
termination_by j => sizeOf j

/-- Comma-and-newline separated array elements, each on its own line. -/
def renderElems (ind cur : String) (x : Json) : List Json → String
  | [] => cur ++ renderJson ind cur x
  | y :: ys => cur ++ renderJson ind cur x ++ ",\n" ++ renderElems ind cur y ys
termination_by l => sizeOf x + sizeOf l

/-- Comma-and-newline separated object members, each on its own line. -/
def renderFields (ind cur k : String) (v : Json) :
    List (String × Json) → String
  | [] => cur ++ jsonQuote k ++ ": " ++ renderJson ind cur v
  | (gk, gv) :: gs => cur ++ jsonQuote k ++ ": " ++ renderJson ind cur v ++ ",\n"
      ++ renderFields ind cur gk gv gs
termination_by l => sizeOf v + sizeOf l

end

/-- `json.MarshalIndent(v, prefix, indent)`: every nested line begins with
`prefix` followed by one copy of `indent` per nesting level; the call in
`persistClientLocked` passes prefix `""` and indent two spaces. -/
def marshalIndent (pre ind : String) (j : Json) : String := renderJson ind pre j

/-- Key order on map entries: Go's `encoding/json` marshals a map with its
keys in sorted order. -/
def keyLE {α : Type} (a b : String × α) : Prop := a.1 ≤ b.1

instance {α : Type} : DecidableRel (@keyLE α) :=
  fun a b => inferInstanceAs (Decidable (a.1 ≤ b.1))

instance {α : Type} : IsTotal (String × α) keyLE :=
  ⟨fun a b => le_total a.1 b.1⟩

instance {α : Type} : IsTrans (String × α) keyLE :=
  ⟨fun _ _ _ h h2 => le_trans h h2⟩

/-- Sort map entries by key, as the Go JSON encoder does. -/
def sortByKey {α : Type} (l : List (String × α)) : List (String × α) :=
  l.insertionSort keyLE

/-- The canonical representation of a Go map as an association list:
keys in sorted order (Go map iteration order is unspecified, so the
sorted list is the faithful value-level representative). -/
def keysSorted {α : Type} (l : List (String × α)) : Prop :=
  List.Pairwise keyLE l

instance {α : Type} (l : List (String × α)) : Decidable (keysSorted l) :=
  inferInstanceAs (Decidable (List.Pairwise _ l))

/-! ## The data model

`Client`, the friend-request records, `SignedConfig` and the keywheel are
declared in files outside the covered source (`client.go`,
`config/config.go`, `keywheel/wheel.go`); their fields are modelled from
the spec (§3) and from what `loadStateLocked`/`persistClientLocked` read
and write.  Go pointer back-references (`request.client`,
`friend.client`) are modelled by the owning client's numeric identity. -/

/-- Modelled from the spec: a PKG server entry of a `SignedConfig`
("address + public key"), shaped like `pkg.PublicServerConfig` in the
test harness. -/
structure PKGServerConfig where
  Key : Bytes
  Address : String
deriving DecidableEq

/-- Modelled from the spec: a mix-net server entry of a `SignedConfig`. -/
structure MixServerConfig where
  Key : Bytes
  Address : String
deriving DecidableEq

/-- Modelled from the spec: the CDN endpoint of a `SignedConfig`, shaped
like `coordinator.CDNServerConfig` in the test harness. -/
structure CDNServerConfig where
  Key : Bytes
  Address : String
deriving DecidableEq

/-- Modelled from the spec (§3): a signed committee configuration — the
service name, creation and expiry timestamps (modelled as abstract time
values), the PKG committee, the mix servers, the CDN endpoint and the
hash-chain back-pointer.  The guardian signature material is abstracted
away: no claim settled here depends on it. -/
structure SignedConfig where
  Service : String
  Created : Nat
  Expires : Nat
  PKGServers : List PKGServerConfig
  MixServers : List MixServerConfig
  CDNServer : CDNServerConfig
  PrevConfigHash : String
deriving DecidableEq

/-- Modelled from the spec: `SignedConfig.Hash`, the cached config hash
recomputed on load.  Only its determinism (a pure function of the config)
is used by any claim, so it is a structural rendering rather than a
cryptographic digest. -/
def SignedConfig.Hash (sc : SignedConfig) : String :=
  sc.Service ++ "|" ++ toString sc.Created ++ "|" ++ toString sc.Expires
    ++ "|" ++ String.join (sc.PKGServers.map
        (fun p => base64Encode p.Key ++ "@" ++ p.Address ++ ";"))
    ++ "|" ++ String.join (sc.MixServers.map
        (fun p => base64Encode p.Key ++ "@" ++ p.Address ++ ";"))
    ++ "|" ++ base64Encode sc.CDNServer.Key ++ "@" ++ sc.CDNServer.Address
    ++ "|" ++ sc.PrevConfigHash

/-- Modelled from the spec (§3): a friend request decrypted from a
mailbox.  `client` is the unexported in-memory back-reference to the
owning client. -/
structure IncomingFriendRequest where
  Username : String
  LongTermKey : Bytes
  DHPublic : Bytes
  Verifiers : List PKGServerConfig
  Round : Nat
  client : Option Nat
deriving DecidableEq

/-- Modelled from the spec (§3): a locally initiated friend request
pending the next add-friend round. -/
structure OutgoingFriendRequest where
  Username : String
  ExpectedKey : Option Bytes
  DHPublic : Bytes
  DHPrivate : Bytes
  DialRound : Nat
  client : Option Nat
deriving DecidableEq

/-- Modelled from the spec (§3): an outgoing request that has been
submitted to a round, retaining the round, the PKG committee used, and
the ephemeral secrets. -/
structure sentFriendRequest where
  Username : String
  ExpectedKey : Option Bytes
  DHPublic : Bytes
  DHPrivate : Bytes
  DialRound : Nat
  Round : Nat
  Verifiers : List PKGServerConfig
  client : Option Nat
deriving DecidableEq

/-- `persistedFriend` from `src/unnamed/part_000`: the persisted
representation of `Friend`.  It has no back-pointer field. -/
structure persistedFriend where
  Username : String
  LongTermKey : Bytes
  ExtraData : Bytes
deriving DecidableEq

/-- `persistedState` from `src/unnamed/part_000`.  The two config fields
are Go pointers that are always non-nil in a persisted client
(`loadStateLocked` dereferences them unconditionally), so they are
embedded as plain values; the Go map `Friends` is represented by its
association list. -/
structure persistedState where
  Username : String
  LongTermPublicKey : Bytes
  LongTermPrivateKey : Bytes
  PKGLoginKey : Bytes
  AddFriendConfig : SignedConfig
  DialingConfig : SignedConfig
  IncomingFriendRequests : List IncomingFriendRequest
  OutgoingFriendRequests : List OutgoingFriendRequest
  SentFriendRequests : List sentFriendRequest
  Friends : List (String × persistedFriend)
deriving DecidableEq

/-- `Friend` (declared outside the covered source; fields per the spec
and per what `loadStateLocked` and `persistClientLocked` touch): a
confirmed contact with unexported `extraData` and the in-memory
back-reference `client`. -/
structure Friend where
  Username : String
  LongTermKey : Bytes
  extraData : Bytes
  client : Option Nat
deriving DecidableEq

/-- Modelled from the spec (§4.1, §6): one keywheel entry — username,
base round, 32-byte secret. -/
structure KeywheelEntry where
  Username : String
  Round : Nat
  Secret : Bytes
deriving DecidableEq

/-- Modelled from the spec: the keywheel, a map from username to ratchet
state, represented by its entry list. -/
structure Keywheel where
  entries : List KeywheelEntry
deriving DecidableEq

/-- Big-endian 16-bit encoding (values are reduced mod `2^8` per byte). -/
def u16Bytes (n : Nat) : Bytes := [mkByte (n / 256), mkByte n]

/-- Big-endian 32-bit encoding. -/
def u32Bytes (n : Nat) : Bytes :=
  [mkByte (n / 16777216), mkByte (n / 65536), mkByte (n / 256), mkByte n]

/-- A username as bytes; `none` if some character is outside one byte. -/
def usernameBytes (s : String) : Option Bytes :=
  s.data.mapM (fun c => if h : c.toNat < 256 then some ⟨c.toNat, h⟩ else none)

/-- The character of one stored username byte. -/
def byteChar (b : Byte) : Char := Char.ofNat b.val

/-- Modelled from the spec (§6): one keywheel blob record —
`username_len:u16, username, round:u32, secret:[32]` (big-endian
integers; records are self-delimiting).  Marshalling fails if the
username does not fit the length prefix or a byte, the round exceeds 32
bits, or the secret is not 32 bytes. -/
def marshalEntry (e : KeywheelEntry) : Option Bytes :=
  match usernameBytes e.Username with
  | none => none
  | some ub =>
    if ub.length < 65536 ∧ e.Round < 4294967296 ∧ e.Secret.length = 32 then
      some (u16Bytes ub.length ++ ub ++ u32Bytes e.Round ++ e.Secret)
    else none

/-- The concatenated records of the keywheel blob. -/
def marshalEntries : List KeywheelEntry → Option Bytes
  | [] => some []
  | e :: es =>
    match marshalEntry e, marshalEntries es with
    | some b, some bs => some (b ++ bs)
    | _, _ => none

/-- Modelled from the spec (§6): `Keywheel.MarshalBinary` — a 1-byte
version (= 1) followed by the records. -/
def Keywheel.MarshalBinary (w : Keywheel) : Option Bytes :=
  match marshalEntries w.entries with
  | none => none
  | some b => some ((1 : Byte) :: b)

/-- Parse one record off the front of the blob. -/
def parseEntry (b : Bytes) : Option (KeywheelEntry × Bytes) :=
  match b with
  | l1 :: l2 :: rest =>
    let ulen := l1.val * 256 + l2.val
    if ulen + 36 ≤ rest.length then
      let ub := rest.take ulen
      let r := rest.drop ulen
      let secret := (r.drop 4).take 32
      let tail := (r.drop 4).drop 32
      match r.take 4 with
      | [r1, r2, r3, r4] =>
        some ({ Username := ⟨ub.map byteChar⟩,
                Round := ((r1.val * 256 + r2.val) * 256 + r3.val) * 256 + r4.val,
                Secret := secret }, tail)
      | _ => none
    else none
  | _ => none

/-- Parse records until the blob is exhausted; the fuel bounds the number
of records (each record is at least 38 bytes, so the blob length is
enough fuel). -/
def parseEntries : Nat → Bytes → Option (List KeywheelEntry)
  | _, [] => some []
  | 0, _ :: _ => none
  | fuel + 1, b =>
    match parseEntry b with
    | none => none
    | some (e, rest) =>
      match parseEntries fuel rest with
      | none => none
      | some es => some (e :: es)

/-- Modelled from the spec (§6): `Keywheel.UnmarshalBinary` — check the
version byte and parse the records. -/
def Keywheel.UnmarshalBinary (data : Bytes) : Option Keywheel :=
  match data with
  | [] => none
  | v :: rest =>
    if v = (1 : Byte) then (parseEntries rest.length rest).map Keywheel.mk
    else none

/-- Conditions under which the spec-modelled keywheel blob marshals: every
entry has a byte-representable username that fits the `u16` length
prefix, a 32-bit round, and a 32-byte secret. -/
def KeywheelWF (w : Keywheel) : Prop :=
  ∀ e ∈ w.entries, (usernameBytes e.Username).isSome
    ∧ e.Username.length < 65536 ∧ e.Round < 4294967296 ∧ e.Secret.length = 32

instance (w : Keywheel) : Decidable (KeywheelWF w) :=
  inferInstanceAs (Decidable (∀ e ∈ w.entries, _ ∧ _ ∧ _ ∧ _))

/-! ## JSON marshalling of the persisted client state

`encodePersistedState` is the document `json.MarshalIndent` produces for
a `persistedState` value: struct fields in declaration order, `[]byte`
fields base64-encoded, the `Friends` map with sorted keys, and the
unexported `client` back-references omitted (Go's encoder skips
unexported fields).  `decodePersistedState` is `json.Unmarshal` into a
fresh `persistedState`: fields are looked up by name, missing fields
keep their zero value, and the unexported `client` fields are left `none`;
the two config fields are required (see `persistedState`). -/

/-- A `[]byte` field marshals as a base64 string. -/
def encodeBytes (b : Bytes) : Json := .str (base64Encode b)

/-- An optional (possibly nil) `[]byte` field: nil marshals as `null`. -/
def encodeOptBytes : Option Bytes → Json
  | none => .null
  | some b => encodeBytes b

/-- JSON document of a PKG server entry. -/
def encodePKGServerConfig (p : PKGServerConfig) : Json :=
  .obj [("Key", encodeBytes p.Key), ("Address", .str p.Address)]

/-- JSON document of a mix server entry. -/
def encodeMixServerConfig (p : MixServerConfig) : Json :=
  .obj [("Key", encodeBytes p.Key), ("Address", .str p.Address)]

/-- JSON document of the CDN endpoint. -/
def encodeCDNServerConfig (p : CDNServerConfig) : Json :=
  .obj [("Key", encodeBytes p.Key), ("Address", .str p.Address)]

/-- JSON document of a `SignedConfig`. -/
def encodeSignedConfig (sc : SignedConfig) : Json :=
  .obj [("Service", .str sc.Service),
        ("Created", .num sc.Created),
        ("Expires", .num sc.Expires),
        ("PKGServers", .arr (sc.PKGServers.map encodePKGServerConfig)),
        ("MixServers", .arr (sc.MixServers.map encodeMixServerConfig)),
        ("CDNServer", encodeCDNServerConfig sc.CDNServer),
        ("PrevConfigHash", .str sc.PrevConfigHash)]

/-- JSON document of an incoming friend request (the unexported `client`
field is not marshalled). -/
def encodeIncoming (r : IncomingFriendRequest) : Json :=
  .obj [("Username", .str r.Username),
        ("LongTermKey", encodeBytes r.LongTermKey),
        ("DHPublic", encodeBytes r.DHPublic),
        ("Verifiers", .arr (r.Verifiers.map encodePKGServerConfig)),
        ("Round", .num r.Round)]

/-- JSON document of an outgoing friend request (`client` omitted). -/
def encodeOutgoing (r : OutgoingFriendRequest) : Json :=
  .obj [("Username", .str r.Username),
        ("ExpectedKey", encodeOptBytes r.ExpectedKey),
        ("DHPublic", encodeBytes r.DHPublic),
        ("DHPrivate", encodeBytes r.DHPrivate),
        ("DialRound", .num r.DialRound)]

/-- JSON document of a sent friend request (`client` omitted). -/
def encodeSent (r : sentFriendRequest) : Json :=
  .obj [("Username", .str r.Username),
        ("ExpectedKey", encodeOptBytes r.ExpectedKey),
        ("DHPublic", encodeBytes r.DHPublic),
        ("DHPrivate", encodeBytes r.DHPrivate),
        ("DialRound", .num r.DialRound),
        ("Round", .num r.Round),
        ("Verifiers", .arr (r.Verifiers.map encodePKGServerConfig))]

/-- JSON document of a persisted friend: exactly
`Username, LongTermKey, ExtraData`. -/
def encodePersistedFriend (f : persistedFriend) : Json :=
  .obj [("Username", .str f.Username),
        ("LongTermKey", encodeBytes f.LongTermKey),
        ("ExtraData", encodeBytes f.ExtraData)]

/-- The client blob: JSON document of a `persistedState`, fields in
declaration order, the `Friends` map with keys sorted. -/
def encodePersistedState (st : persistedState) : Json :=
  .obj [("Username", .str st.Username),
        ("LongTermPublicKey", encodeBytes st.LongTermPublicKey),
        ("LongTermPrivateKey", encodeBytes st.LongTermPrivateKey),
        ("PKGLoginKey", encodeBytes st.PKGLoginKey),
        ("AddFriendConfig", encodeSignedConfig st.AddFriendConfig),
        ("DialingConfig", encodeSignedConfig st.DialingConfig),
        ("IncomingFriendRequests", .arr (st.IncomingFriendRequests.map encodeIncoming)),
        ("OutgoingFriendRequests", .arr (st.OutgoingFriendRequests.map encodeOutgoing)),
        ("SentFriendRequests", .arr (st.SentFriendRequests.map encodeSent)),
        ("Friends", .obj ((sortByKey st.Friends).map
          (fun p => (p.1, encodePersistedFriend p.2))))]

/-- Look up an object member by name. -/
def getField (fields : List (String × Json)) (k : String) : Option Json :=
  (fields.find? (fun f => f.1 == k)).map (fun f => f.2)

/-- A string field; missing keeps the zero value `""`. -/
def fieldStr (fields : List (String × Json)) (k : String) : Option String :=
  match getField fields k with
  | none => some ""
  | some (.str s) => some s
  | some _ => none

/-- An unsigned integer field; missing keeps the zero value 0. -/
def fieldNum (fields : List (String × Json)) (k : String) : Option Nat :=
  match getField fields k with
  | none => some 0
  | some (.num n) => some n
  | some _ => none

/-- A `[]byte` field; missing or `null` yields the nil slice. -/
def fieldBytes (fields : List (String × Json)) (k : String) : Option Bytes :=
  match getField fields k with
  | none => some []
  | some .null => some []
  | some (.str s) => base64Decode s
  | some _ => none

/-- An optional `[]byte` field distinguishing nil (`null`) from present. -/
def fieldOptBytes (fields : List (String × Json)) (k : String) :
    Option (Option Bytes) :=
  match getField fields k with
  | none => some none
  | some .null => some none
  | some (.str s) => (base64Decode s).map some
  | some _ => none

/-- An array field; missing or `null` yields the empty slice. -/
def fieldArr (fields : List (String × Json)) (k : String) : Option (List Json) :=
  match getField fields k with
  | none => some []
  | some .null => some []
  | some (.arr xs) => some xs
  | some _ => none

/-- Unmarshal a PKG server entry. -/
def decodePKGServerConfig : Json → Option PKGServerConfig
  | .obj fields =>
    match fieldBytes fields "Key", fieldStr fields "Address" with
    | some k, some a => some ⟨k, a⟩
    | _, _ => none
  | _ => none

/-- Unmarshal a mix server entry. -/
def decodeMixServerConfig : Json → Option MixServerConfig
  | .obj fields =>
    match fieldBytes fields "Key", fieldStr fields "Address" with
    | some k, some a => some ⟨k, a⟩
    | _, _ => none
  | _ => none

/-- Unmarshal the CDN endpoint. -/
def decodeCDNServerConfig : Json → Option CDNServerConfig
  | .obj fields =>
    match fieldBytes fields "Key", fieldStr fields "Address" with
    | some k, some a => some ⟨k, a⟩
    | _, _ => none
  | _ => none

/-- Unmarshal a `SignedConfig`. -/
def decodeSignedConfig : Json → Option SignedConfig
  | .obj fields =>
    match fieldStr fields "Service", fieldNum fields "Created",
        fieldNum fields "Expires", fieldArr fields "PKGServers",
        fieldArr fields "MixServers", fieldStr fields "PrevConfigHash" with
    | some sv, some cr, some ex, some pj, some mj, some ph =>
      match pj.mapM decodePKGServerConfig, mj.mapM decodeMixServerConfig with
      | some ps, some ms =>
        match getField fields "CDNServer" with
        | none => some ⟨sv, cr, ex, ps, ms, ⟨[], ""⟩, ph⟩
        | some cj =>
          match decodeCDNServerConfig cj with
          | some cdn => some ⟨sv, cr, ex, ps, ms, cdn, ph⟩
          | none => none
      | _, _ => none
    | _, _, _, _, _, _ => none
  | _ => none

/-- Unmarshal an incoming friend request; the unexported `client` field
is untouched by `json.Unmarshal` and stays `none`. -/
def decodeIncoming : Json → Option IncomingFriendRequest
  | .obj fields =>
    match fieldStr fields "Username", fieldBytes fields "LongTermKey",
        fieldBytes fields "DHPublic", fieldArr fields "Verifiers",
        fieldNum fields "Round" with
    | some u, some ltk, some dh, some vj, some rd =>
      match vj.mapM decodePKGServerConfig with
      | some vs => some ⟨u, ltk, dh, vs, rd, none⟩
      | none => none
    | _, _, _, _, _ => none
  | _ => none

/-- Unmarshal an outgoing friend request; `client` stays `none`. -/
def decodeOutgoing : Json → Option OutgoingFriendRequest
  | .obj fields =>
    match fieldStr fields "Username", fieldOptBytes fields "ExpectedKey",
        fieldBytes fields "DHPublic", fieldBytes fields "DHPrivate",
        fieldNum fields "DialRound" with
    | some u, some ek, some dhp, some dhs, some dr =>
      some ⟨u, ek, dhp, dhs, dr, none⟩
    | _, _, _, _, _ => none
  | _ => none

/-- Unmarshal a sent friend request; `client` stays `none`. -/
def decodeSent : Json → Option sentFriendRequest
  | .obj fields =>
    match fieldStr fields "Username", fieldOptBytes fields "ExpectedKey",
        fieldBytes fields "DHPublic", fieldBytes fields "DHPrivate",
        fieldNum fields "DialRound", fieldNum fields "Round",
        fieldArr fields "Verifiers" with
    | some u, some ek, some dhp, some dhs, some dr, some rd, some vj =>
      match vj.mapM decodePKGServerConfig with
      | some vs => some ⟨u, ek, dhp, dhs, dr, rd, vs, none⟩
      | none => none
    | _, _, _, _, _, _, _ => none
  | _ => none

/-- Unmarshal a persisted friend. -/
def decodePersistedFriend : Json → Option persistedFriend
  | .obj fields =>
    match fieldStr fields "Username", fieldBytes fields "LongTermKey",
        fieldBytes fields "ExtraData" with
    | some u, some ltk, some ed => some ⟨u, ltk, ed⟩
    | _, _, _ => none
  | _ => none

/-- The `Friends` map field: an object whose members become map entries
in member order; missing or `null` yields the empty map. -/
def fieldFriends (fields : List (String × Json)) :
    Option (List (String × persistedFriend)) :=
  match getField fields "Friends" with
  | none => some []
  | some .null => some []
  | some (.obj entries) =>
    entries.mapM (fun p =>
      match decodePersistedFriend p.2 with
      | some f => some (p.1, f)
      | none => none)
  | some _ => none

/-- `json.Unmarshal` of the client blob into a fresh `persistedState`. -/
def decodePersistedState : Json → Option persistedState
  | .obj fields =>
    match fieldStr fields "Username", fieldBytes fields "LongTermPublicKey",
        fieldBytes fields "LongTermPrivateKey", fieldBytes fields "PKGLoginKey" with
    | some u, some pub, some priv, some login =>
      match getField fields "AddFriendConfig", getField fields "DialingConfig" with
      | some aj, some dj =>
        match decodeSignedConfig aj, decodeSignedConfig dj with
        | some ac, some dc =>
          match fieldArr fields "IncomingFriendRequests",
              fieldArr fields "OutgoingFriendRequests",
              fieldArr fields "SentFriendRequests" with
          | some ij, some oj, some sj =>
            match ij.mapM decodeIncoming, oj.mapM decodeOutgoing,
                sj.mapM decodeSent, fieldFriends fields with
            | some irs, some ors, some srs, some frs =>
              some ⟨u, pub, priv, login, ac, dc, irs, ors, srs, frs⟩
            | _, _, _, _ => none
          | _, _, _ => none
        | _, _ => none
      | _, _ => none
    | _, _, _, _ => none
  | _ => none

/-- The value `json.Unmarshal` recovers from the marshalled client blob:
the same state with the unexported `client` back-references cleared (the
Go decoder cannot set unexported fields) and the `Friends` map in its
marshalled key order. -/
def persistedState.normalize (st : persistedState) : persistedState :=
  { st with
    IncomingFriendRequests :=
      st.IncomingFriendRequests.map (fun r => { r with client := none })
    OutgoingFriendRequests :=
      st.OutgoingFriendRequests.map (fun r => { r with client := none })
    SentFriendRequests :=
      st.SentFriendRequests.map (fun r => { r with client := none })
    Friends := sortByKey st.Friends }

/-! ## The file system and the persistence operations -/

/-- One file's contents: the keywheel blob is binary; the client blob is
a JSON document (its bytes are the deterministic rendering
`marshalIndent "" "  "`). -/
inductive FileData where
  | binary (data : Bytes) : FileData
  | jsonDoc (doc : Json) : FileData

/-- The bytes of a stored file, as a string of byte-sized characters for
the binary case. -/
def FileData.render : FileData → String
  | .binary data => ⟨data.map byteChar⟩
  | .jsonDoc doc => marshalIndent "" "  " doc

/-- Errors surfaced by the persistence code. -/
inductive Err where
  | readErr (path : String) : Err
  | writeErr (path : String) : Err
  | jsonUnmarshalErr : Err
  | keywheelUnmarshalErr : Err
  | keywheelMarshalErr : Err
deriving DecidableEq

/-- The modelled file system: the stored files (path, contents, mode) and
the set of paths on which writes fail, modelling I/O errors. -/
structure FS where
  files : List (String × FileData × Nat)
  failing : List String

/-- Store a file, replacing any previous version atomically. -/
def FS.setFile (fs : FS) (path : String) (d : FileData) (mode : Nat) : FS :=
  { fs with files := (path, d, mode) :: fs.files }

/-- Look up a file. -/
def FS.getFile (fs : FS) (path : String) : Option (FileData × Nat) :=
  (fs.files.find? (fun e => e.1 == path)).map (fun e => e.2)

/-- Modelled from the spec: `ioutil2.WriteFileAtomic` (outside the covered
source) writes a file via a temp file and rename with the given mode; in
this model the write is one atomic update of the file map recording the
mode, and it fails exactly on the paths in `failing`. -/
def WriteFileAtomic (path : String) (d : FileData) (mode : Nat) (fs : FS) :
    FS × Option Err :=
  if fs.failing.contains path then (fs, some (.writeErr path))
  else (fs.setFile path d mode, none)

/-- `ioutil.ReadFile`. -/
def ReadFile (fs : FS) (path : String) : Except Err FileData :=
  match fs.getFile path with
  | some (d, _) => .ok d
  | none => .error (.readErr path)

/-- The client (declared in client.go, outside the covered source): the
fields read and written by the persistence code, plus `ref`, the
client's identity standing in for its Go pointer.  The mutex, handler
and connection state are in-memory-only and play no part here. -/
structure Client where
  ref : Nat
  Username : String
  LongTermPublicKey : Bytes
  LongTermPrivateKey : Bytes
  PKGLoginKey : Bytes
  ClientPersistPath : String
  KeywheelPersistPath : String
  addFriendConfig : SignedConfig
  addFriendConfigHash : String
  dialingConfig : SignedConfig
  dialingConfigHash : String
  incomingFriendRequests : List IncomingFriendRequest
  outgoingFriendRequests : List OutgoingFriendRequest
  sentFriendRequests : List sentFriendRequest
  friends : List (String × Friend)
  wheel : Keywheel
deriving DecidableEq

/-- `Client.loadStateLocked` from `src/unnamed/part_000`: restore the
identity fields, restore the configs and recompute their hashes, take
over the three request lists setting each record's `client`
back-reference to this client, and rebuild the friends map from the
persisted representation with the back-reference set. -/
def Client.loadStateLocked (c : Client) (st : persistedState) : Client :=
  { c with
    Username := st.Username
    LongTermPublicKey := st.LongTermPublicKey
    LongTermPrivateKey := st.LongTermPrivateKey
    PKGLoginKey := st.PKGLoginKey
    addFriendConfig := st.AddFriendConfig
    addFriendConfigHash := st.AddFriendConfig.Hash
    dialingConfig := st.DialingConfig
    dialingConfigHash := st.DialingConfig.Hash
    incomingFriendRequests :=
      st.IncomingFriendRequests.map (fun r => { r with client := some c.ref })
    outgoingFriendRequests :=
      st.OutgoingFriendRequests.map (fun r => { r with client := some c.ref })
    sentFriendRequests :=
      st.SentFriendRequests.map (fun r => { r with client := some c.ref })
    friends := st.Friends.map (fun p => (p.1,
      { Username := p.2.Username
        LongTermKey := p.2.LongTermKey
        extraData := p.2.ExtraData
        client := some c.ref : Friend })) }

/-- The zero `SignedConfig`, for the fields of a freshly allocated client. -/
def zeroConfig : SignedConfig := ⟨"", 0, 0, [], [], ⟨[], ""⟩, ""⟩

/-- A freshly allocated client as `LoadClient` builds it: persist paths
set, the keywheel unmarshalled into `wheel`, everything else zero. -/
def newClient (ref : Nat) (clientPersistPath keywheelPersistPath : String)
    (wheel : Keywheel) : Client :=
  { ref := ref
    Username := ""
    LongTermPublicKey := []
    LongTermPrivateKey := []
    PKGLoginKey := []
    ClientPersistPath := clientPersistPath
    KeywheelPersistPath := keywheelPersistPath
    addFriendConfig := zeroConfig
    addFriendConfigHash := ""
    dialingConfig := zeroConfig
    dialingConfigHash := ""
    incomingFriendRequests := []
    outgoingFriendRequests := []
    sentFriendRequests := []
    friends := []
    wheel := wheel }

/-- `LoadClient` from `src/unnamed/part_000`: read the client blob,
unmarshal it, read the keywheel blob, unmarshal it into a fresh client
carrying both persist paths, then `loadStateLocked`.  Each failing step
returns its error and no client.  `ref` is the identity of the freshly
allocated client. -/
def LoadClient (clientPersistPath keywheelPersistPath : String) (fs : FS)
    (ref : Nat) : Except Err Client :=
  match ReadFile fs clientPersistPath with
  | .error e => .error e
  | .ok (.binary _) => .error .jsonUnmarshalErr
  | .ok (.jsonDoc doc) =>
    match decodePersistedState doc with
    | none => .error .jsonUnmarshalErr
    | some st =>
      match ReadFile fs keywheelPersistPath with
      | .error e => .error e
      | .ok (.jsonDoc _) => .error .keywheelUnmarshalErr
      | .ok (.binary kwData) =>
        match Keywheel.UnmarshalBinary kwData with
        | none => .error .keywheelUnmarshalErr
        | some wheel =>
          .ok ((newClient ref clientPersistPath keywheelPersistPath
            wheel).loadStateLocked st)

/-- The `persistedState` value `persistClientLocked` builds from the
client before marshalling. -/
def Client.buildPersistedState (c : Client) : persistedState :=
  { Username := c.Username
    LongTermPublicKey := c.LongTermPublicKey
    LongTermPrivateKey := c.LongTermPrivateKey
    PKGLoginKey := c.PKGLoginKey
    AddFriendConfig := c.addFriendConfig
    DialingConfig := c.dialingConfig
    IncomingFriendRequests := c.incomingFriendRequests
    OutgoingFriendRequests := c.outgoingFriendRequests
    SentFriendRequests := c.sentFriendRequests
    Friends := c.friends.map (fun p => (p.1,
      { Username := p.2.Username
        LongTermKey := p.2.LongTermKey
        ExtraData := p.2.extraData : persistedFriend })) }

/-- `Client.persistClientLocked` from `src/unnamed/part_000`: a no-op
success if no client persist path is configured, else marshal the built
`persistedState` with two-space indent and write it atomically with mode
`0600`. -/
def Client.persistClientLocked (c : Client) (fs : FS) : FS × Option Err :=
  if c.ClientPersistPath = "" then (fs, none)
  else WriteFileAtomic c.ClientPersistPath
    (.jsonDoc (encodePersistedState c.buildPersistedState)) 0o600 fs

/-- `Client.persistKeywheelLocked` from `src/unnamed/part_000`: a no-op
success if no keywheel persist path is configured, else marshal the
keywheel and write it atomically with mode `0600`. -/
def Client.persistKeywheelLocked (c : Client) (fs : FS) : FS × Option Err :=
  if c.KeywheelPersistPath = "" then (fs, none)
  else
    match c.wheel.MarshalBinary with
    | none => (fs, some .keywheelMarshalErr)
    | some data => WriteFileAtomic c.KeywheelPersistPath (.binary data) 0o600 fs

/-- `Client.persistLocked` from `src/unnamed/part_000`:
`err := persistClientLocked(); if e := persistKeywheelLocked(); err == nil
then err = e; return err` — both writes are attempted, the first error
wins. -/
def Client.persistLocked (c : Client) (fs : FS) : FS × Option Err :=
  let r1 := c.persistClientLocked fs
  let r2 := c.persistKeywheelLocked r1.1
  (r2.1, match r1.2 with
         | none => r2.2
         | some e => some e)

/-- Modelled from the spec (§4.2, §4.3): the re-verification §4.2 says a
load performs on the restored configs.  Signature verification needs the
guardian keys recorded in the preceding config and cannot be evaluated
from the covered source; the context-free rules of §4.3 are rule 2 (the
config carries the service of the chain it is stored under) and rule 5
(`Expires` strictly after `Created`).  A config breaking either rule
cannot be accepted by any §4.3-compliant verifier. -/
def configReverifyOK (sc : SignedConfig) (expectedService : String) : Bool :=
  (sc.Service == expectedService) && decide (sc.Created < sc.Expires)

/-- The members of a JSON object (empty for non-objects). -/
def Json.objMembers : Json → List (String × Json)
  | .obj fields => fields
  | _ => []

/-- The member names of a JSON object, in order. -/
def Json.topKeys (j : Json) : List String := j.objMembers.map (fun p => p.1)

/-- The first failing step of a load, reading `LoadClient` as the claim
does: the client-read error, else the client-blob unmarshal error, else
the keywheel-read error, else the keywheel unmarshal error; `none` when
every step succeeds. -/
def loadFailure (cp kp : String) (fs : FS) : Option Err :=
  match ReadFile fs cp with
  | .error e => some e
  | .ok (.binary _) => some .jsonUnmarshalErr
  | .ok (.jsonDoc doc) =>
    match decodePersistedState doc with
    | none => some .jsonUnmarshalErr
    | some _ =>
      match ReadFile fs kp with
      | .error e => some e
      | .ok (.jsonDoc _) => some .keywheelUnmarshalErr
      | .ok (.binary kwData) =>
        match Keywheel.UnmarshalBinary kwData with
        | none => some .keywheelUnmarshalErr
        | some _ => none

/-! ## Concrete example values used by the witnesses -/

/-- Example add-friend configuration. -/
def sampleAddFriendConfig : SignedConfig :=
  { Service := "AddFriend", Created := 1, Expires := 100,
    PKGServers := [{ Key := [1, 2], Address := "pkg1:80" }],
    MixServers := [{ Key := [3], Address := "mix1:80" }],
    CDNServer := { Key := [4], Address := "cdn:80" },
    PrevConfigHash := "" }

/-- Example dialing configuration. -/
def sampleDialingConfig : SignedConfig :=
  { sampleAddFriendConfig with Service := "Dialing" }

/-- Example incoming friend request. -/
def sampleIncoming : IncomingFriendRequest :=
  { Username := "carol@example.org", LongTermKey := [5], DHPublic := [6],
    Verifiers := [{ Key := [1, 2], Address := "pkg1:80" }], Round := 4,
    client := some 7 }

/-- Example outgoing friend request. -/
def sampleOutgoing : OutgoingFriendRequest :=
  { Username := "dave@example.org", ExpectedKey := none, DHPublic := [7],
    DHPrivate := [8], DialRound := 9, client := some 7 }

/-- Example sent friend request. -/
def sampleSent : sentFriendRequest :=
  { Username := "erin@example.org", ExpectedKey := some [9], DHPublic := [10],
    DHPrivate := [11], DialRound := 12, Round := 3,
    Verifiers := [], client := some 7 }

/-- Example confirmed friend. -/
def sampleFriend : Friend :=
  { Username := "bob@example.org", LongTermKey := [12], extraData := [13],
    client := some 7 }

/-- Example keywheel with one entry. -/
def sampleWheel : Keywheel :=
  ⟨[{ Username := "bob@example.org", Round := 5,
      Secret := List.replicate 32 (0 : Byte) }]⟩

/-- Example client with both persist paths configured and consistent
cached config hashes. -/
def sampleClient : Client :=
  { ref := 7, Username := "alice@example.org",
    LongTermPublicKey := [14], LongTermPrivateKey := [15], PKGLoginKey := [16],
    ClientPersistPath := "client.state",
    KeywheelPersistPath := "keywheel.state",
    addFriendConfig := sampleAddFriendConfig,
    addFriendConfigHash := sampleAddFriendConfig.Hash,
    dialingConfig := sampleDialingConfig,
    dialingConfigHash := sampleDialingConfig.Hash,
    incomingFriendRequests := [sampleIncoming],
    outgoingFriendRequests := [sampleOutgoing],
    sentFriendRequests := [sampleSent],
    friends := [("bob@example.org", sampleFriend)],
    wheel := sampleWheel }

/-- A client with no persist paths configured (in-memory only). -/
def ephemeralClient : Client :=
  { sampleClient with ClientPersistPath := "", KeywheelPersistPath := "" }

/-- A client like `sampleClient` but with an empty keywheel, whose blob
is just the version byte. -/
def emptyWheelClient : Client := { sampleClient with wheel := ⟨[]⟩ }

/-- The empty file system. -/
def emptyFS : FS := ⟨[], []⟩

/-- A file system on which writes to the client path fail. -/
def clientWriteFailFS : FS := ⟨[], ["client.state"]⟩

/-- An add-friend config that cannot be re-verified: wrong service name
and an expiry not after its creation (it breaks rules 2 and 5 of the
verification procedure). -/
def unverifiableConfig : SignedConfig :=
  { Service := "Bogus", Created := 5, Expires := 5, PKGServers := [],
    MixServers := [], CDNServer := ⟨[], ""⟩, PrevConfigHash := "" }

/-- A well-formed dialing config for the unverifiable blob. -/
def plainDialingConfig : SignedConfig :=
  { Service := "Dialing", Created := 1, Expires := 2, PKGServers := [],
    MixServers := [], CDNServer := ⟨[], ""⟩, PrevConfigHash := "" }

/-- A persisted state whose add-friend config cannot be re-verified. -/
def badPersistedState : persistedState :=
  { Username := "mallory@example.org",
    LongTermPublicKey := [], LongTermPrivateKey := [], PKGLoginKey := [],
    AddFriendConfig := unverifiableConfig,
    DialingConfig := plainDialingConfig,
    IncomingFriendRequests := [], OutgoingFriendRequests := [],
    SentFriendRequests := [], Friends := [] }

/-- A file system holding the unverifiable blob and an empty keywheel
blob. -/
def badFS : FS :=
  ⟨[("client.state", .jsonDoc (encodePersistedState badPersistedState), 0o600),
    ("keywheel.state", .binary [(1 : Byte)], 0o600)], []⟩

/-! ## Theorems -/

theorem b64Index_b64Char_mod (k : Nat) :
    b64Index (b64Char (k % 64)) = some (k % 64) := by
  have hfin : ∀ j : Fin 64, b64Index (b64Char j.val) = some j.val := by decide
  exact hfin ⟨k % 64, Nat.mod_lt _ (by decide)⟩

theorem b64Char_mod_eq_pad_iff (k : Nat) : b64Char (k % 64) = '=' ↔ False := by
  have hfin : ∀ j : Fin 64, ¬ b64Char j.val = '=' := by decide
  exact iff_false_intro (hfin ⟨k % 64, Nat.mod_lt _ (by decide)⟩)

theorem b64_decode_encode : ∀ bs : Bytes, b64DecodeList (b64EncodeList bs) = some bs
  | [] => rfl
  | [a] => by
    obtain ⟨av, ha⟩ := a
    simp only [b64EncodeList, b64DecodeList, b64Index_b64Char_mod,
      b64Char_mod_eq_pad_iff, if_true, if_false, and_self, and_true, true_and,
      Option.some.injEq, List.cons.injEq]
    apply Fin.ext
    simp only [mkByte]
    omega
  | [a, b] => by
    obtain ⟨av, ha⟩ := a
    obtain ⟨bv, hb⟩ := b
    simp only [b64EncodeList, b64DecodeList, b64Index_b64Char_mod,
      b64Char_mod_eq_pad_iff, if_true, if_false, and_self, and_true, true_and,
      Option.some.injEq, List.cons.injEq]
    refine ⟨?_, ?_⟩
    · apply Fin.ext; simp only [mkByte]; omega
    · apply Fin.ext; simp only [mkByte]; omega
  | [a, b, c] => by
    obtain ⟨av, ha⟩ := a
    obtain ⟨bv, hb⟩ := b
    obtain ⟨cv, hc⟩ := c
    simp only [b64EncodeList, b64DecodeList, b64Index_b64Char_mod,
      b64Char_mod_eq_pad_iff, if_true, if_false, and_self, and_true, true_and,
      Option.some.injEq, List.cons.injEq]
    refine ⟨?_, ?_, ?_⟩
    · apply Fin.ext; simp only [mkByte]; omega
    · apply Fin.ext; simp only [mkByte]; omega
    · apply Fin.ext; simp only [mkByte]; omega
  | a :: b :: c :: d :: rest => by
    obtain ⟨av, ha⟩ := a
    obtain ⟨bv, hb⟩ := b
    obtain ⟨cv, hc⟩ := c
    have ih := b64_decode_encode (d :: rest)
    simp only [b64EncodeList] at ih ⊢
    simp only [b64DecodeList, b64Index_b64Char_mod, b64Char_mod_eq_pad_iff,
      if_true, if_false, and_self, and_true, true_and, ih,
      Option.some.injEq, List.cons.injEq]
    refine ⟨?_, ?_, ?_⟩
    · apply Fin.ext; simp only [mkByte]; omega
    · apply Fin.ext; simp only [mkByte]; omega
    · apply Fin.ext; simp only [mkByte]; omega

theorem base64_decode_encode (bs : Bytes) :
    base64Decode (base64Encode bs) = some bs :=
  b64_decode_encode bs


set_option maxRecDepth 4000 in
/-- C4: For each of the seventeen error kinds listed in the spec,
`ErrorCode.String` applied to the kind's code returns `"Err"` followed
by the kind's name.  This holds of the copy of the generated stringer
embedded next to the client source, but the copy under `pkg/` omits
`ErrInvalidLoginKey` from its name table: at code 4 (the code of
`InvalidLoginKey`) it returns `"ErrNotRegistered"` instead of
`"ErrInvalidLoginKey"`, so the generated table under `pkg/` is stale
relative to the constant list the spec (and the other copy) record. -/
theorem errorCode_string_seventeen_kinds :
    (∀ i : Fin 17,
      ErrorCodeStringClient ((i : Nat) + 1) = "Err" ++ errorKinds.getD i "")
    ∧ errorKinds.getD 3 "" = "InvalidLoginKey"
    ∧ ErrorCodeStringPkg 4 = "ErrNotRegistered" := by
  refine ⟨by decide, by decide, by decide⟩

set_option maxRecDepth 4000 in
/-- C9: `ErrorCode.String` (the copy under `pkg/`) never indexes its
name table out of bounds: every out-of-range value, including zero and
negative values and values past the last entry of its index table,
yields the fallback string carrying the original value, and for every
in-range value the slice bounds are ordered and within the length of
the name string. -/
theorem errorCodeStringPkg_safe :
    (∀ v : Int, (v < 1 ∨ 16 < v) →
      ErrorCodeStringPkg v = "ErrorCode(" ++ toString v ++ ")")
    ∧ (∀ i : Fin 16,
        ErrorCodeIndexPkg.getD i 0 ≤ ErrorCodeIndexPkg.getD ((i : Nat) + 1) 0
        ∧ ErrorCodeIndexPkg.getD ((i : Nat) + 1) 0 ≤ ErrorCodeNamePkg.length) := by
  constructor
  · intro v h
    have hlen : ErrorCodeIndexPkg.length = 17 := rfl
    simp only [ErrorCodeStringPkg, hlen]
    rw [if_pos]
    · have hv : v - 1 + 1 = v := by omega
      rw [hv]
    · rcases h with h | h
      · exact Or.inl (by omega)
      · refine Or.inr ?_
        have h16 : ((17 - 1 : Nat) : Int) = 16 := by norm_num
        rw [h16]
        omega
  · decide

/-- Witness for C9 at the concrete out-of-range values -5, 0 and 42. -/
theorem errorCodeStringPkg_safe_witness :
    ErrorCodeStringPkg (-5) = "ErrorCode(-5)"
    ∧ ErrorCodeStringPkg 0 = "ErrorCode(0)"
    ∧ ErrorCodeStringPkg 42 = "ErrorCode(42)" :=
  ⟨errorCodeStringPkg_safe.1 (-5) (Or.inl (by decide)),
   errorCodeStringPkg_safe.1 0 (Or.inl (by decide)),
   errorCodeStringPkg_safe.1 42 (Or.inr (by decide))⟩



theorem mapM_byte_chars :
    ∀ (cs : List Char) (ub : Bytes),
      cs.mapM (fun c => if h : c.toNat < 256 then some (⟨c.toNat, h⟩ : Byte) else none)
        = some ub → ub.map byteChar = cs := by
  intro cs
  induction cs with
  | nil =>
    intro ub h
    simp only [List.mapM_nil, pure, Option.some.injEq] at h
    subst h
    rfl
  | cons c cs ih =>
    intro ub h
    simp only [List.mapM_cons] at h
    by_cases hc : c.toNat < 256
    · simp only [hc, dite_true, Option.bind_eq_bind, Option.some_bind] at h
      match hub : cs.mapM (fun c => if h : c.toNat < 256 then some (⟨c.toNat, h⟩ : Byte) else none) with
      | none => rw [hub] at h; simp at h
      | some ub' =>
        rw [hub] at h
        simp only [Option.some_bind, pure, Option.some.injEq] at h
        subst h
        simp only [List.map_cons, byteChar, Char.ofNat_toNat]
        rw [ih ub' hub]
    · simp only [hc, dite_false, Option.bind_eq_bind, Option.none_bind] at h
      exact absurd h (by simp)

theorem usernameBytes_chars {s : String} {ub : Bytes}
    (h : usernameBytes s = some ub) : ub.map byteChar = s.data :=
  mapM_byte_chars s.data ub h

theorem usernameBytes_length {s : String} {ub : Bytes}
    (h : usernameBytes s = some ub) : ub.length = s.length := by
  have hc := congrArg List.length (usernameBytes_chars h)
  simpa using hc

theorem parseEntry_append {e : KeywheelEntry} {eb : Bytes}
    (h : marshalEntry e = some eb) (rest : Bytes) :
    parseEntry (eb ++ rest) = some (e, rest) := by
  obtain ⟨eu, er, es⟩ := e
  simp only [marshalEntry] at h
  match hub : usernameBytes eu with
  | none => rw [hub] at h; exact absurd h (by simp)
  | some ub =>
    rw [hub] at h
    dsimp only at h
    by_cases hcond : ub.length < 65536 ∧ er < 4294967296 ∧ es.length = 32
    · rw [if_pos hcond] at h
      obtain ⟨hlen, hround, hsec⟩ := hcond
      have heb := Option.some.inj h
      subst heb
      simp only [u16Bytes, u32Bytes, List.cons_append, List.nil_append,
        List.append_assoc, parseEntry]
      have hulen : (mkByte (ub.length / 256)).val * 256 + (mkByte ub.length).val
          = ub.length := by
        simp only [mkByte]
        omega
      rw [hulen]
      rw [if_pos (by simp only [List.length_append, hsec, List.length_cons]; omega)]
      rw [List.take_left' rfl, List.drop_left' rfl]
      simp only [List.take_succ_cons, List.take_zero, List.drop_succ_cons,
        List.drop_zero]
      rw [List.take_left' hsec, List.drop_left' hsec]
      simp only [Option.some.injEq, Prod.mk.injEq, KeywheelEntry.mk.injEq, and_true]
      constructor
      · rw [usernameBytes_chars hub]
      · simp only [mkByte]
        omega
    · rw [if_neg hcond] at h
      exact absurd h (by simp)

theorem marshalEntry_length_pos {e : KeywheelEntry} {eb : Bytes}
    (h : marshalEntry e = some eb) : 0 < eb.length := by
  simp only [marshalEntry] at h
  match hub : usernameBytes e.Username with
  | none => rw [hub] at h; exact absurd h (by simp)
  | some ub =>
    rw [hub] at h
    dsimp only at h
    by_cases hcond : ub.length < 65536 ∧ e.Round < 4294967296 ∧ e.Secret.length = 32
    · rw [if_pos hcond] at h
      have heb := Option.some.inj h
      subst heb
      simp only [u16Bytes, u32Bytes, List.length_append, List.length_cons,
        List.length_nil]
      omega
    · rw [if_neg hcond] at h
      exact absurd h (by simp)

theorem parseEntries_marshal :
    ∀ (es : List KeywheelEntry) (bs : Bytes), marshalEntries es = some bs →
      ∀ fuel, es.length ≤ fuel → parseEntries fuel bs = some es := by
  intro es
  induction es with
  | nil =>
    intro bs h fuel _
    simp only [marshalEntries, Option.some.injEq] at h
    subst h
    cases fuel <;> rfl
  | cons e es ih =>
    intro bs h fuel hfuel
    simp only [marshalEntries] at h
    match heb : marshalEntry e, hebs : marshalEntries es with
    | some eb, some bs' =>
      rw [heb, hebs] at h
      dsimp only at h
      have hbs := Option.some.inj h
      subst hbs
      match fuel with
      | 0 => simp only [List.length_cons] at hfuel; omega
      | fuel + 1 =>
        have hpos := marshalEntry_length_pos heb
        have hpe := parseEntry_append heb bs'
        cases eb with
        | nil => simp at hpos
        | cons x xs =>
          simp only [List.cons_append] at hpe ⊢
          simp only [parseEntries, hpe,
            ih bs' hebs fuel (by simp only [List.length_cons] at hfuel; omega)]
    | some _, none =>
      rw [heb, hebs] at h
      exact absurd h (by simp)
    | none, _ =>
      rw [heb] at h
      exact absurd h (by simp)

theorem marshalEntries_of_wf :
    ∀ es : List KeywheelEntry,
      (∀ e ∈ es, (usernameBytes e.Username).isSome ∧ e.Username.length < 65536
        ∧ e.Round < 4294967296 ∧ e.Secret.length = 32) →
      ∃ bs, marshalEntries es = some bs := by
  intro es
  induction es with
  | nil => exact fun _ => ⟨[], rfl⟩
  | cons e es ih =>
    intro h
    obtain ⟨h1, h2, h3, h4⟩ := h e (by simp)
    obtain ⟨ub, hub⟩ := Option.isSome_iff_exists.mp h1
    obtain ⟨bs', hbs'⟩ := ih (fun x hx => h x (by simp [hx]))
    have hlen : ub.length < 65536 := by
      rw [usernameBytes_length hub]
      exact h2
    refine ⟨u16Bytes ub.length ++ ub ++ u32Bytes e.Round ++ e.Secret ++ bs', ?_⟩
    simp only [marshalEntries, marshalEntry, hub]
    rw [if_pos ⟨hlen, h3, h4⟩, hbs']

theorem marshalEntries_length_ge :
    ∀ (es : List KeywheelEntry) (bs : Bytes), marshalEntries es = some bs →
      es.length ≤ bs.length := by
  intro es
  induction es with
  | nil => intro bs h; simp [marshalEntries] at h; simp [← h]
  | cons e es ih =>
    intro bs h
    simp only [marshalEntries] at h
    match heb : marshalEntry e, hebs : marshalEntries es with
    | some eb, some bs' =>
      rw [heb, hebs] at h
      dsimp only at h
      have hbs := Option.some.inj h
      subst hbs
      have := marshalEntry_length_pos heb
      have := ih bs' hebs
      simp only [List.length_cons, List.length_append]
      omega
    | some _, none =>
      rw [heb, hebs] at h
      exact absurd h (by simp)
    | none, _ =>
      rw [heb] at h
      exact absurd h (by simp)

theorem keywheel_roundtrip {w : Keywheel} (hw : KeywheelWF w) :
    ∃ data, w.MarshalBinary = some data
      ∧ Keywheel.UnmarshalBinary data = some w := by
  obtain ⟨bs, hbs⟩ := marshalEntries_of_wf w.entries hw
  refine ⟨(1 : Byte) :: bs, ?_, ?_⟩
  · simp only [Keywheel.MarshalBinary, hbs]
  · simp only [Keywheel.UnmarshalBinary, if_pos rfl]
    rw [parseEntries_marshal w.entries bs hbs bs.length
      (marshalEntries_length_ge w.entries bs hbs)]
    obtain ⟨es⟩ := w
    rfl



theorem decodePKGServerConfig_encode (p : PKGServerConfig) :
    decodePKGServerConfig (encodePKGServerConfig p) = some p := by
  simp [encodePKGServerConfig, decodePKGServerConfig, fieldBytes, fieldStr,
    getField, encodeBytes, base64_decode_encode]

theorem decodeMixServerConfig_encode (p : MixServerConfig) :
    decodeMixServerConfig (encodeMixServerConfig p) = some p := by
  simp [encodeMixServerConfig, decodeMixServerConfig, fieldBytes, fieldStr,
    getField, encodeBytes, base64_decode_encode]

theorem decodeCDNServerConfig_encode (p : CDNServerConfig) :
    decodeCDNServerConfig (encodeCDNServerConfig p) = some p := by
  simp [encodeCDNServerConfig, decodeCDNServerConfig, fieldBytes, fieldStr,
    getField, encodeBytes, base64_decode_encode]

theorem mapM_map_decode {α : Type} {enc : α → Json} {dec : Json → Option α}
    (h : ∀ x, dec (enc x) = some x) :
    ∀ l : List α, (l.map enc).mapM dec = some l := by
  intro l
  induction l with
  | nil => rfl
  | cons x xs ih =>
    simp only [List.map_cons, List.mapM_cons, h x, Option.bind_eq_bind,
      Option.some_bind, ih, pure]

theorem mapM_loop_map_decode {α : Type} {enc : α → Json} {dec : Json → Option α}
    (h : ∀ x, dec (enc x) = some x) :
    ∀ (l : List α) (acc : List α),
      List.mapM.loop dec (l.map enc) acc = some (acc.reverse ++ l) := by
  intro l
  induction l with
  | nil => intro acc; simp [List.mapM.loop]
  | cons x xs ih =>
    intro acc
    simp only [List.map_cons, List.mapM.loop, h x, Option.bind_eq_bind,
      Option.some_bind, ih (x :: acc), List.reverse_cons, List.append_assoc,
      List.cons_append, List.nil_append]

theorem decodeSignedConfig_encode (sc : SignedConfig) :
    decodeSignedConfig (encodeSignedConfig sc) = some sc := by
  simp [encodeSignedConfig, decodeSignedConfig, fieldStr, fieldNum, fieldArr,
    getField, mapM_loop_map_decode decodePKGServerConfig_encode,
    mapM_loop_map_decode decodeMixServerConfig_encode,
    decodeCDNServerConfig_encode]



theorem mapM_loop_map_decode_to {α β : Type} {enc : α → Json} {dec : Json → Option β}
    {f : α → β} (h : ∀ x, dec (enc x) = some (f x)) :
    ∀ (l : List α) (acc : List β),
      List.mapM.loop dec (l.map enc) acc = some (acc.reverse ++ l.map f) := by
  intro l
  induction l with
  | nil => intro acc; simp [List.mapM.loop]
  | cons x xs ih =>
    intro acc
    simp only [List.map_cons, List.mapM.loop, h x, Option.bind_eq_bind,
      Option.some_bind, ih (f x :: acc), List.reverse_cons, List.append_assoc,
      List.cons_append, List.nil_append]

theorem decodeIncoming_encode (r : IncomingFriendRequest) :
    decodeIncoming (encodeIncoming r) = some { r with client := none } := by
  simp [encodeIncoming, decodeIncoming, fieldStr, fieldNum, fieldBytes,
    fieldArr, getField, encodeBytes, base64_decode_encode,
    mapM_loop_map_decode decodePKGServerConfig_encode]

theorem decodeOutgoing_encode (r : OutgoingFriendRequest) :
    decodeOutgoing (encodeOutgoing r) = some { r with client := none } := by
  obtain ⟨u, ek, dhp, dhs, dr, cl⟩ := r
  cases ek with
  | none =>
    simp [encodeOutgoing, decodeOutgoing, fieldStr, fieldNum, fieldBytes,
      fieldOptBytes, getField, encodeBytes, encodeOptBytes, base64_decode_encode]
  | some b =>
    simp [encodeOutgoing, decodeOutgoing, fieldStr, fieldNum, fieldBytes,
      fieldOptBytes, getField, encodeBytes, encodeOptBytes, base64_decode_encode]

theorem decodeSent_encode (r : sentFriendRequest) :
    decodeSent (encodeSent r) = some { r with client := none } := by
  obtain ⟨u, ek, dhp, dhs, dr, rd, vs, cl⟩ := r
  cases ek with
  | none =>
    simp [encodeSent, decodeSent, fieldStr, fieldNum, fieldBytes,
      fieldOptBytes, fieldArr, getField, encodeBytes, encodeOptBytes,
      base64_decode_encode, mapM_loop_map_decode decodePKGServerConfig_encode]
  | some b =>
    simp [encodeSent, decodeSent, fieldStr, fieldNum, fieldBytes,
      fieldOptBytes, fieldArr, getField, encodeBytes, encodeOptBytes,
      base64_decode_encode, mapM_loop_map_decode decodePKGServerConfig_encode]

theorem decodePersistedFriend_encode (f : persistedFriend) :
    decodePersistedFriend (encodePersistedFriend f) = some f := by
  simp [encodePersistedFriend, decodePersistedFriend, fieldStr, fieldBytes,
    getField, encodeBytes, base64_decode_encode]

theorem mapM_loop_friends_decode :
    ∀ (l : List (String × persistedFriend)) (acc : List (String × persistedFriend)),
      List.mapM.loop
        (fun p => match decodePersistedFriend p.2 with
                  | some f => some (p.1, f)
                  | none => none)
        (l.map (fun p => (p.1, encodePersistedFriend p.2))) acc
      = some (acc.reverse ++ l) := by
  intro l
  induction l with
  | nil => intro acc; simp [List.mapM.loop]
  | cons x xs ih =>
    intro acc
    simp only [List.map_cons, List.mapM.loop, decodePersistedFriend_encode,
      Option.bind_eq_bind, Option.some_bind, ih (x :: acc), List.reverse_cons,
      List.append_assoc, List.cons_append, List.nil_append]

theorem decodePersistedState_encode (st : persistedState) :
    decodePersistedState (encodePersistedState st) = some st.normalize := by
  simp [encodePersistedState, decodePersistedState, persistedState.normalize,
    fieldStr, fieldNum, fieldBytes, fieldArr, fieldFriends, getField,
    encodeBytes, base64_decode_encode, decodeSignedConfig_encode,
    mapM_loop_map_decode_to decodeIncoming_encode,
    mapM_loop_map_decode_to decodeOutgoing_encode,
    mapM_loop_map_decode_to decodeSent_encode,
    mapM_loop_friends_decode]



theorem sortByKey_sortByKey {α : Type} (l : List (String × α)) :
    sortByKey (sortByKey l) = sortByKey l :=
  List.Sorted.insertionSort_eq (List.sorted_insertionSort keyLE l)

theorem keysSorted_sortByKey_eq {α : Type} {l : List (String × α)}
    (h : keysSorted l) : sortByKey l = l :=
  List.Sorted.insertionSort_eq h

theorem encodeIncoming_strip (r : IncomingFriendRequest) :
    encodeIncoming { r with client := none } = encodeIncoming r := rfl

theorem encodeOutgoing_strip (r : OutgoingFriendRequest) :
    encodeOutgoing { r with client := none } = encodeOutgoing r := rfl

theorem encodeSent_strip (r : sentFriendRequest) :
    encodeSent { r with client := none } = encodeSent r := rfl

theorem encodePersistedState_normalize (st : persistedState) :
    encodePersistedState st.normalize = encodePersistedState st := by
  simp only [encodePersistedState, persistedState.normalize, List.map_map,
    Function.comp_def, encodeIncoming_strip, encodeOutgoing_strip,
    encodeSent_strip, sortByKey_sortByKey]

theorem getFile_setFile_same (fs : FS) (p : String) (d : FileData) (m : Nat) :
    (fs.setFile p d m).getFile p = some (d, m) := by
  simp [FS.setFile, FS.getFile]

theorem getFile_setFile_ne (fs : FS) {p q : String} (d : FileData) (m : Nat)
    (h : q ≠ p) : (fs.setFile p d m).getFile q = fs.getFile q := by
  simp only [FS.setFile, FS.getFile, List.find?]
  have hpq : (p == q) = false := by
    simp only [beq_eq_false_iff_ne, ne_eq]
    exact fun hh => h hh.symm
  simp [hpq]



/-- C6: persisting with an empty configured path is a no-op success, not
an error: with `ClientPersistPath = ""` the client persist leaves the
file system unchanged and returns no error, and likewise the keywheel
persist with `KeywheelPersistPath = ""`. -/
theorem persist_empty_path_noop (c : Client) (fs : FS) :
    (c.ClientPersistPath = "" → c.persistClientLocked fs = (fs, none))
    ∧ (c.KeywheelPersistPath = "" → c.persistKeywheelLocked fs = (fs, none)) := by
  constructor
  · intro h
    simp [Client.persistClientLocked, h]
  · intro h
    simp [Client.persistKeywheelLocked, h]

/-- Witness for C6: a concrete client with both persist paths empty. -/
theorem persist_empty_path_noop_witness :
    ephemeralClient.persistClientLocked emptyFS = (emptyFS, none)
    ∧ ephemeralClient.persistKeywheelLocked emptyFS = (emptyFS, none) :=
  ⟨(persist_empty_path_noop ephemeralClient emptyFS).1 rfl,
   (persist_empty_path_noop ephemeralClient emptyFS).2 rfl⟩

/-- The client-blob write never changes the set of failing paths. -/
theorem persistClientLocked_failing (c : Client) (fs : FS) :
    (c.persistClientLocked fs).1.failing = fs.failing := by
  unfold Client.persistClientLocked WriteFileAtomic
  split
  · rfl
  · split
    · rfl
    · rfl

/-- C3: the combined persist attempts both sub-writes and returns the
first error.  The final file system is the keywheel write applied to the
client write's file system, the returned error is the client write's if
that failed and the keywheel write's otherwise, and concretely: whenever
the keywheel path is configured, writable, and the keywheel marshals,
the keywheel blob lands in the file system even if the client-blob
write failed. -/
theorem persistLocked_attempts_both (c : Client) (fs : FS) :
    ((c.persistLocked fs).1
        = (c.persistKeywheelLocked (c.persistClientLocked fs).1).1
      ∧ (c.persistLocked fs).2
        = (match (c.persistClientLocked fs).2 with
           | some e => some e
           | none => (c.persistKeywheelLocked (c.persistClientLocked fs).1).2))
    ∧ (c.KeywheelPersistPath ≠ "" →
        fs.failing.contains c.KeywheelPersistPath = false →
        ∀ data, c.wheel.MarshalBinary = some data →
          (c.persistLocked fs).1.getFile c.KeywheelPersistPath
            = some (.binary data, 0o600)) := by
  refine ⟨⟨rfl, ?_⟩, ?_⟩
  · cases h : (c.persistClientLocked fs).2 <;>
      simp [Client.persistLocked, h]
  intro hkp hfail data hdata
  show (c.persistKeywheelLocked (c.persistClientLocked fs).1).1.getFile
    c.KeywheelPersistPath = some (.binary data, 0o600)
  unfold Client.persistKeywheelLocked
  rw [if_neg hkp, hdata]
  unfold WriteFileAtomic
  rw [persistClientLocked_failing, hfail]
  simp [getFile_setFile_same]

/-- Witness for C3: a client whose client-blob path is on the failing
list; the combined persist returns the client write error, yet the
keywheel blob is written. -/
theorem persistLocked_attempts_both_witness :
    (emptyWheelClient.persistLocked clientWriteFailFS).2
      = some (.writeErr "client.state")
    ∧ (emptyWheelClient.persistLocked clientWriteFailFS).1.getFile
        "keywheel.state" = some (.binary [(1 : Byte)], 0o600) :=
  ⟨rfl,
   (persistLocked_attempts_both emptyWheelClient clientWriteFailFS).2
     (by decide) (by decide) [(1 : Byte)] rfl⟩

/-- C8: marshalling a state, unmarshalling the blob, and marshalling the
result again is byte-for-byte the first marshal: the unmarshal succeeds
and the two renderings of the client blob (the exact text
`json.MarshalIndent` produces) are equal strings. -/
theorem marshal_unmarshal_marshal (st : persistedState) :
    ∃ st', decodePersistedState (encodePersistedState st) = some st'
      ∧ marshalIndent "" "  " (encodePersistedState st')
        = marshalIndent "" "  " (encodePersistedState st) :=
  ⟨st.normalize, decodePersistedState_encode st,
   congrArg (marshalIndent "" "  ") (encodePersistedState_normalize st)⟩

/-- C7: after `loadStateLocked`, every incoming, outgoing and sent
request and every friend holds this client as its back-reference; and
the persisted representation carries no back-pointer: the marshalled
form of a request is unchanged under any value of its `client` field
(and `persistedFriend` has no such field at all). -/
theorem loadState_back_references (c : Client) (st : persistedState) :
    (∀ r ∈ (c.loadStateLocked st).incomingFriendRequests,
        r.client = some c.ref)
    ∧ (∀ r ∈ (c.loadStateLocked st).outgoingFriendRequests,
        r.client = some c.ref)
    ∧ (∀ r ∈ (c.loadStateLocked st).sentFriendRequests,
        r.client = some c.ref)
    ∧ (∀ p ∈ (c.loadStateLocked st).friends, p.2.client = some c.ref)
    ∧ (∀ (r : IncomingFriendRequest) (x : Option Nat),
        encodeIncoming { r with client := x } = encodeIncoming r)
    ∧ (∀ (r : OutgoingFriendRequest) (x : Option Nat),
        encodeOutgoing { r with client := x } = encodeOutgoing r)
    ∧ (∀ (r : sentFriendRequest) (x : Option Nat),
        encodeSent { r with client := x } = encodeSent r) := by
  refine ⟨?_, ?_, ?_, ?_, fun r x => rfl, fun r x => rfl, fun r x => rfl⟩
  · intro r hr
    simp only [Client.loadStateLocked, List.mem_map] at hr
    obtain ⟨r0, _, rfl⟩ := hr
    rfl
  · intro r hr
    simp only [Client.loadStateLocked, List.mem_map] at hr
    obtain ⟨r0, _, rfl⟩ := hr
    rfl
  · intro r hr
    simp only [Client.loadStateLocked, List.mem_map] at hr
    obtain ⟨r0, _, rfl⟩ := hr
    rfl
  · intro p hp
    simp only [Client.loadStateLocked, List.mem_map] at hp
    obtain ⟨p0, _, rfl⟩ := hp
    rfl

/-- Witness for C7 at a concrete client and persisted state. -/
theorem loadState_back_references_witness :
    ∀ r ∈ (sampleClient.loadStateLocked
        sampleClient.buildPersistedState).incomingFriendRequests,
      r.client = some 7 :=
  (loadState_back_references sampleClient sampleClient.buildPersistedState).1



/-- C5: with a configured (and writable) client persist path,
`persistClientLocked` atomically writes one file at that path: a JSON
document with file mode `0600`, rendered with two-space indent and no
prefix, whose top-level members are exactly the ten listed fields in
declaration order, and whose `Friends` member stores each friend as an
object with exactly `Username, LongTermKey, ExtraData`. -/
theorem persistClient_writes_blob (c : Client) (fs : FS)
    (hcp : c.ClientPersistPath ≠ "")
    (hw : fs.failing.contains c.ClientPersistPath = false) :
    c.persistClientLocked fs
        = (fs.setFile c.ClientPersistPath
            (.jsonDoc (encodePersistedState c.buildPersistedState)) 0o600, none)
      ∧ (FileData.jsonDoc (encodePersistedState c.buildPersistedState)).render
          = marshalIndent "" "  " (encodePersistedState c.buildPersistedState)
      ∧ (encodePersistedState c.buildPersistedState).topKeys
          = ["Username", "LongTermPublicKey", "LongTermPrivateKey",
             "PKGLoginKey", "AddFriendConfig", "DialingConfig",
             "IncomingFriendRequests", "OutgoingFriendRequests",
             "SentFriendRequests", "Friends"]
      ∧ (∀ m ∈ (encodePersistedState c.buildPersistedState).objMembers,
          m.1 = "Friends" →
          ∀ q ∈ m.2.objMembers,
            q.2.topKeys = ["Username", "LongTermKey", "ExtraData"]) := by
  refine ⟨?_, rfl, rfl, ?_⟩
  · unfold Client.persistClientLocked
    rw [if_neg hcp]
    unfold WriteFileAtomic
    rw [hw]
    rfl
  · intro m hm hfr q hq
    simp only [encodePersistedState, Json.objMembers, List.mem_cons,
      List.not_mem_nil, or_false] at hm
    rcases hm with rfl | rfl | rfl | rfl | rfl | rfl | rfl | rfl | rfl | rfl
    all_goals try simp at hfr
    simp only [Json.objMembers, List.mem_map] at hq
    obtain ⟨p, _, rfl⟩ := hq
    rfl

/-- Witness for C5 at a concrete client on the empty file system. -/
theorem persistClient_writes_blob_witness :
    sampleClient.persistClientLocked emptyFS
      = (emptyFS.setFile "client.state"
          (.jsonDoc (encodePersistedState sampleClient.buildPersistedState))
          0o600, none) :=
  (persistClient_writes_blob sampleClient emptyFS (by decide) (by decide)).1

/-- C10: `LoadClient` returns a client exactly when reading the client
file, unmarshalling the client blob, reading the keywheel file and
unmarshalling the keywheel blob all succeed — and then the returned
client is the fully loaded state, never a partial one; otherwise it
returns the first failing step's error and no client. -/
theorem loadClient_ok_iff (cp kp : String) (fs : FS) (ref : Nat) :
    (∀ c', LoadClient cp kp fs ref = .ok c' ↔
      ∃ doc st kwData wheel,
        ReadFile fs cp = .ok (.jsonDoc doc)
        ∧ decodePersistedState doc = some st
        ∧ ReadFile fs kp = .ok (.binary kwData)
        ∧ Keywheel.UnmarshalBinary kwData = some wheel
        ∧ c' = (newClient ref cp kp wheel).loadStateLocked st)
    ∧ (∀ e, LoadClient cp kp fs ref = .error e
        ↔ loadFailure cp kp fs = some e) := by
  unfold LoadClient loadFailure
  cases h1 : ReadFile fs cp with
  | error e1 => simp [h1]
  | ok fd =>
    cases fd with
    | binary b => simp [h1]
    | jsonDoc doc =>
      cases h2 : decodePersistedState doc with
      | none => simp [h1, h2]
      | some st =>
        cases h3 : ReadFile fs kp with
        | error e2 => simp [h1, h2, h3]
        | ok fd2 =>
          cases fd2 with
          | jsonDoc d2 => simp [h1, h2, h3]
          | binary kw =>
            cases h4 : Keywheel.UnmarshalBinary kw with
            | none => simp [h1, h2, h3, h4]
            | some wheel =>
              simp only [h1, h2, h3, h4]
              constructor
              · intro c'
                simp only [Except.ok.injEq, FileData.jsonDoc.injEq,
                  FileData.binary.injEq, Option.some.injEq]
                constructor
                · intro h
                  exact ⟨doc, st, kw, wheel, rfl, h2, rfl, h4, h.symm⟩
                · rintro ⟨doc2, st2, kw2, wheel2, hh1, hh2, hh3, hh4, rfl⟩
                  have hd : doc2 = doc := by
                    have := hh1
                    simp only [Except.ok.injEq, FileData.jsonDoc.injEq] at this
                    exact this.symm
                  subst hd
                  have hs : st2 = st := by
                    rw [h2] at hh2
                    exact (Option.some.inj hh2).symm
                  subst hs
                  have hk : kw2 = kw := by
                    have := hh3
                    simp only [Except.ok.injEq, FileData.binary.injEq] at this
                    exact this.symm
                  subst hk
                  have hw2 : wheel2 = wheel := by
                    rw [h4] at hh4
                    exact (Option.some.inj hh4).symm
                  subst hw2
                  rfl
              · intro e
                simp

/-- C2 counterexample: a persisted blob whose referenced add-friend
config cannot be re-verified (wrong service name and expiry not after
creation), on which `LoadClient` nevertheless returns a client and no
error — refuting "the load fails with a config-integrity error". -/
theorem loadClient_no_config_check :
    configReverifyOK badPersistedState.AddFriendConfig "AddFriend" = false
    ∧ (LoadClient "client.state" "keywheel.state" badFS 0).isOk = true := by
  exact ⟨rfl, rfl⟩

/-- C2 amended: `LoadClient` performs no re-verification of the restored
configs: whenever the client blob parses and the keywheel blob
unmarshals, the load succeeds, even when a restored config fails the
verification rules. -/
theorem loadClient_ignores_config_validity
    (cp kp : String) (fs : FS) (ref : Nat) (doc : Json)
    (st : persistedState) (kwData : Bytes) (wheel : Keywheel)
    (h1 : ReadFile fs cp = .ok (.jsonDoc doc))
    (h2 : decodePersistedState doc = some st)
    (h3 : ReadFile fs kp = .ok (.binary kwData))
    (h4 : Keywheel.UnmarshalBinary kwData = some wheel)
    (hbad : configReverifyOK st.AddFriendConfig "AddFriend" = false) :
    LoadClient cp kp fs ref
      = .ok ((newClient ref cp kp wheel).loadStateLocked st) := by
  unfold LoadClient
  simp only [h1, h2, h3, h4]

/-- Witness for the amended C2 at the unverifiable blob. -/
theorem loadClient_ignores_config_validity_witness :
    LoadClient "client.state" "keywheel.state" badFS 0
      = .ok ((newClient 0 "client.state" "keywheel.state"
          ⟨[]⟩).loadStateLocked badPersistedState.normalize) :=
  loadClient_ignores_config_validity "client.state" "keywheel.state" badFS 0
    (encodePersistedState badPersistedState) badPersistedState.normalize
    [(1 : Byte)] ⟨[]⟩ rfl (decodePersistedState_encode badPersistedState) rfl
    rfl (by decide)



theorem keysSorted_map {α β : Type} (g : α → β) {l : List (String × α)}
    (h : keysSorted l) : keysSorted (l.map (fun p => (p.1, g p.2))) :=
  List.Pairwise.map _ (fun _ _ hab => hab) h

/-- C1: persist/load round trip.  For a client in a reachable
configuration (consistent cached config hashes, canonically represented
friends map, marshallable keywheel, both persist paths configured,
distinct and writable), persisting via the combined persist and loading
from the resulting files yields a client with the same `Username`, both
long-term keys, `PKGLoginKey`, both configs and their cached hashes, all
three friend-request lists, the friends map (`Username`, `LongTermKey`,
`extraData`) and keywheel — unchanged up to the in-memory back-references,
which point at the freshly allocated client. -/
theorem loadClient_persist_roundtrip (c : Client) (fs : FS) (ref : Nat)
    (hcp : c.ClientPersistPath ≠ "")
    (hkp : c.KeywheelPersistPath ≠ "")
    (hne : c.KeywheelPersistPath ≠ c.ClientPersistPath)
    (hf1 : fs.failing.contains c.ClientPersistPath = false)
    (hf2 : fs.failing.contains c.KeywheelPersistPath = false)
    (hwheel : KeywheelWF c.wheel)
    (hhash1 : c.addFriendConfigHash = c.addFriendConfig.Hash)
    (hhash2 : c.dialingConfigHash = c.dialingConfig.Hash)
    (hsorted : keysSorted c.friends) :
    ∃ c', LoadClient c.ClientPersistPath c.KeywheelPersistPath
        (c.persistLocked fs).1 ref = .ok c'
      ∧ c'.Username = c.Username
      ∧ c'.LongTermPublicKey = c.LongTermPublicKey
      ∧ c'.LongTermPrivateKey = c.LongTermPrivateKey
      ∧ c'.PKGLoginKey = c.PKGLoginKey
      ∧ c'.addFriendConfig = c.addFriendConfig
      ∧ c'.addFriendConfigHash = c.addFriendConfigHash
      ∧ c'.dialingConfig = c.dialingConfig
      ∧ c'.dialingConfigHash = c.dialingConfigHash
      ∧ c'.incomingFriendRequests
          = c.incomingFriendRequests.map (fun r => { r with client := some ref })
      ∧ c'.outgoingFriendRequests
          = c.outgoingFriendRequests.map (fun r => { r with client := some ref })
      ∧ c'.sentFriendRequests
          = c.sentFriendRequests.map (fun r => { r with client := some ref })
      ∧ c'.friends
          = c.friends.map (fun p => (p.1, { p.2 with client := some ref }))
      ∧ c'.wheel = c.wheel
      ∧ c'.ClientPersistPath = c.ClientPersistPath
      ∧ c'.KeywheelPersistPath = c.KeywheelPersistPath
      ∧ c'.ref = ref := by
  obtain ⟨data, hdata, hunm⟩ := keywheel_roundtrip hwheel
  have hfs1 : c.persistClientLocked fs
      = (fs.setFile c.ClientPersistPath
          (.jsonDoc (encodePersistedState c.buildPersistedState)) 0o600,
         none) := by
    unfold Client.persistClientLocked
    rw [if_neg hcp]
    unfold WriteFileAtomic
    rw [hf1]
    rfl
  have hfs2 : c.persistKeywheelLocked
        (fs.setFile c.ClientPersistPath
          (.jsonDoc (encodePersistedState c.buildPersistedState)) 0o600)
      = ((fs.setFile c.ClientPersistPath
            (.jsonDoc (encodePersistedState c.buildPersistedState))
            0o600).setFile
          c.KeywheelPersistPath (.binary data) 0o600, none) := by
    unfold Client.persistKeywheelLocked
    rw [if_neg hkp, hdata]
    unfold WriteFileAtomic
    rw [show (fs.setFile c.ClientPersistPath
        (.jsonDoc (encodePersistedState c.buildPersistedState))
        0o600).failing = fs.failing from rfl]
    rw [hf2]
    rfl
  have hfinal : (c.persistLocked fs).1
      = (fs.setFile c.ClientPersistPath
          (.jsonDoc (encodePersistedState c.buildPersistedState))
          0o600).setFile
        c.KeywheelPersistPath (.binary data) 0o600 := by
    simp only [Client.persistLocked, hfs1, hfs2]
  have hsne : c.ClientPersistPath ≠ c.KeywheelPersistPath :=
    fun h => hne h.symm
  have hread1 : ReadFile
      ((fs.setFile c.ClientPersistPath
          (.jsonDoc (encodePersistedState c.buildPersistedState))
          0o600).setFile
        c.KeywheelPersistPath (.binary data) 0o600) c.ClientPersistPath
      = .ok (.jsonDoc (encodePersistedState c.buildPersistedState)) := by
    unfold ReadFile
    rw [getFile_setFile_ne _ _ _ hsne, getFile_setFile_same]
  have hread2 : ReadFile
      ((fs.setFile c.ClientPersistPath
          (.jsonDoc (encodePersistedState c.buildPersistedState))
          0o600).setFile
        c.KeywheelPersistPath (.binary data) 0o600) c.KeywheelPersistPath
      = .ok (.binary data) := by
    unfold ReadFile
    rw [getFile_setFile_same]
  refine ⟨(newClient ref c.ClientPersistPath c.KeywheelPersistPath
      c.wheel).loadStateLocked c.buildPersistedState.normalize,
    ?_, rfl, rfl, rfl, rfl, rfl, hhash1.symm, rfl, hhash2.symm,
    ?_, ?_, ?_, ?_, rfl, rfl, rfl, rfl⟩
  · rw [hfinal]
    unfold LoadClient
    simp only [hread1, decodePersistedState_encode, hread2, hunm]
  · simp only [Client.loadStateLocked, persistedState.normalize,
      Client.buildPersistedState, List.map_map]
    rfl
  · simp only [Client.loadStateLocked, persistedState.normalize,
      Client.buildPersistedState, List.map_map]
    rfl
  · simp only [Client.loadStateLocked, persistedState.normalize,
      Client.buildPersistedState, List.map_map]
    rfl
  · simp only [Client.loadStateLocked, persistedState.normalize,
      Client.buildPersistedState]
    rw [keysSorted_sortByKey_eq (keysSorted_map (fun f => ({ Username := f.Username, LongTermKey := f.LongTermKey, ExtraData := f.extraData } : persistedFriend)) hsorted)]
    rw [List.map_map]
    rfl

/-- Witness for C1 at a concrete client with one request of each kind,
one friend and a one-entry keywheel, persisted to the empty file
system. -/
theorem loadClient_persist_roundtrip_witness :
    ∃ c', LoadClient "client.state" "keywheel.state"
        (sampleClient.persistLocked emptyFS).1 7 = .ok c'
      ∧ c'.Username = sampleClient.Username
      ∧ c'.LongTermPublicKey = sampleClient.LongTermPublicKey
      ∧ c'.LongTermPrivateKey = sampleClient.LongTermPrivateKey
      ∧ c'.PKGLoginKey = sampleClient.PKGLoginKey
      ∧ c'.addFriendConfig = sampleClient.addFriendConfig
      ∧ c'.addFriendConfigHash = sampleClient.addFriendConfigHash
      ∧ c'.dialingConfig = sampleClient.dialingConfig
      ∧ c'.dialingConfigHash = sampleClient.dialingConfigHash
      ∧ c'.incomingFriendRequests
          = sampleClient.incomingFriendRequests.map
              (fun r => { r with client := some 7 })
      ∧ c'.outgoingFriendRequests
          = sampleClient.outgoingFriendRequests.map
              (fun r => { r with client := some 7 })
      ∧ c'.sentFriendRequests
          = sampleClient.sentFriendRequests.map
              (fun r => { r with client := some 7 })
      ∧ c'.friends
          = sampleClient.friends.map
              (fun p => (p.1, { p.2 with client := some 7 }))
      ∧ c'.wheel = sampleClient.wheel
      ∧ c'.ClientPersistPath = sampleClient.ClientPersistPath
      ∧ c'.KeywheelPersistPath = sampleClient.KeywheelPersistPath
      ∧ c'.ref = 7 :=
  loadClient_persist_roundtrip sampleClient emptyFS 7 (by decide) (by decide)
    (by decide) (by decide) (by decide) (by decide) rfl rfl (by decide)


end Alpenhorn
